import Mathlib

/-!
Verification development for the miyar-arcteryx store monitor
(`monitor_miyar_arcteryx_debug.py`).

The Python program is shallowly embedded: Python `dict`s (which preserve
insertion order and have unique keys) become association lists with an
insert-or-replace operation, Python `float` prices become `ℚ`, Python
`None` becomes `Option.none`, and the network layer (`requests` session,
`get_json`, `get_text`, `fetch_products_via_products_json`,
`crawl_collections_all`) is abstracted as oracle data passed to
`build_snapshot` in a `Fetchers` record.  Notification delivery
(`send_embed` and the message templates) is abstracted into a typed
`Event` emitted by the diff engine.
-/

namespace Miyar

/-! ### String helpers

The Python `in` operator on strings, `str.lower`, and `str.strip` are
modelled over the character list of the string so that everything
kernel-reduces. -/

/-- Tests whether the list `n` occurs at the head of `h` (the prefix
step of the Python substring search). -/
def isPrefList : List Char → List Char → Bool
  | [], _ => true
  | _ :: _, [] => false
  | a :: as, b :: bs => a = b && isPrefList as bs

/-- Tests whether `n` occurs contiguously somewhere in `h` (models the
Python string operator `n in h`). -/
def occursIn : List Char → List Char → Bool
  | nee, [] => isPrefList nee []
  | nee, b :: rest => isPrefList nee (b :: rest) || occursIn nee rest

/-- Substring test: `strHas hay nee` models the Python `nee in hay`. -/
def strHas (hay nee : String) : Bool := occursIn nee.data hay.data

/-- ASCII lower-casing of one character (models Python `str.lower` on the
ASCII inputs the program compares against). -/
def lowerChar (c : Char) : Char :=
  if 'A' ≤ c ∧ c ≤ 'Z' then Char.ofNat (c.toNat + 32) else c

/-- Models Python `str.lower`. -/
def lowerStr (s : String) : String := ⟨s.data.map lowerChar⟩

/-- ASCII whitespace, as stripped by Python `str.strip()`. -/
def isWs (c : Char) : Bool :=
  c = ' ' || c = '\t' || c = '\n' || c = '\r' || c = '\x0b' || c = '\x0c'

/-- Strip leading and trailing whitespace (models Python `str.strip()`). -/
def trimChars (l : List Char) : List Char :=
  ((l.dropWhile isWs).reverse.dropWhile isWs).reverse

/-! ### Kernel-reducible rational arithmetic

Batteries marks `Rat.add`, `Rat.mul`, `Rat.sub`, `Rat.div` and `Rat.inv`
`@[irreducible]`, which stops `decide` from evaluating them.  The
definitions below compute the same operations through `mkRat` /
`Rat.divInt`; each is proved equal to the standard operation in the
theorem section, so statements can still be read with the usual
notation. -/

/-- Rational addition, computed through `mkRat`. -/
def qadd (a b : ℚ) : ℚ := mkRat (a.num * b.den + b.num * a.den) (a.den * b.den)

/-- Rational subtraction, computed through `mkRat`. -/
def qsub (a b : ℚ) : ℚ := mkRat (a.num * b.den - b.num * a.den) (a.den * b.den)

/-- Rational multiplication, computed through `mkRat`. -/
def qmul (a b : ℚ) : ℚ := mkRat (a.num * b.num) (a.den * b.den)

/-- Rational division, computed through `Rat.divInt`. -/
def qdiv (a b : ℚ) : ℚ := Rat.divInt (a.num * b.den) (a.den * b.num)

/-- Rational inverse, computed through `Rat.divInt`. -/
def qinv (q : ℚ) : ℚ := Rat.divInt (q.den : ℤ) q.num

/-- Rational absolute value, computed through `mkRat`. -/
def qabs (q : ℚ) : ℚ := mkRat q.num.natAbs q.den

/-- Rational natural power. -/
def qpow (q : ℚ) : ℕ → ℚ
  | 0 => 1
  | n + 1 => qmul (qpow q n) q

/-- Rational integer power. -/
def qzpow (q : ℚ) : ℤ → ℚ
  | Int.ofNat n => qpow q n
  | Int.negSucc n => qinv (qpow q (n + 1))

/-! ### `money_to_float` (source lines 60-71) -/

/-- The possible runtime types of a price value coming from JSON:
`null`, a Python `int`, a Python `float`, or a string. -/
inductive MoneyIn where
  | null
  | int (i : Int)
  | num (q : ℚ)
  | str (s : String)
deriving DecidableEq

/-- Round-half-to-even to an integer, as the Python builtin `round` does,
computed on the reduced numerator and denominator: `f` is the floor and
`r2` the numerator of twice the fractional part over the denominator. -/
def rhe (q : ℚ) : ℤ :=
  let f := Int.fdiv q.num (q.den : ℤ)
  let r2 := 2 * (q.num - f * (q.den : ℤ))
  if r2 < (q.den : ℤ) then f
  else if (q.den : ℤ) < r2 then f + 1
  else if f % 2 = 0 then f else f + 1

/-- Python `round(q, 2)`. -/
def round2 (q : ℚ) : ℚ := qdiv ((rhe (qmul q 100) : ℤ) : ℚ) 100

/-- Digit run to its decimal value. -/
def digitsVal (l : List Char) : ℕ :=
  l.foldl (fun a c => a * 10 + (c.toNat - 48)) 0

/-- Models the Python builtin `float` on decimal literals: optional sign,
digits with an optional fractional part, optional exponent.  The `inf`,
`nan` and digit-underscore spellings accepted by Python are not modelled
(the program never meets them).  Returns `none` where `float` raises. -/
def parsePyFloat (s : String) : Option ℚ :=
  let l := s.data
  let (sgn, l1) : ℚ × List Char :=
    match l with
    | '+' :: r => (1, r)
    | '-' :: r => (-1, r)
    | _ => (1, l)
  let ip := l1.takeWhile Char.isDigit
  let l2 := l1.dropWhile Char.isDigit
  let (fp, l3) : List Char × List Char :=
    match l2 with
    | '.' :: r => (r.takeWhile Char.isDigit, r.dropWhile Char.isDigit)
    | _ => ([], l2)
  if ip.isEmpty && fp.isEmpty then Option.none
  else
    let mant : ℚ :=
      qmul sgn (qadd (digitsVal ip : ℚ) (qdiv (digitsVal fp : ℚ) (qpow 10 fp.length)))
    match l3 with
    | [] => some mant
    | 'e' :: r =>
      let (es, r1) : Int × List Char :=
        match r with
        | '+' :: r2 => (1, r2)
        | '-' :: r2 => (-1, r2)
        | _ => (1, r)
      let ed := r1.takeWhile Char.isDigit
      let r2 := r1.dropWhile Char.isDigit
      if ed.isEmpty || !r2.isEmpty then Option.none
      else some (qmul mant (qzpow 10 (es * (digitsVal ed : Int))))
    | 'E' :: r =>
      let (es, r1) : Int × List Char :=
        match r with
        | '+' :: r2 => (1, r2)
        | '-' :: r2 => (-1, r2)
        | _ => (1, r)
      let ed := r1.takeWhile Char.isDigit
      let r2 := r1.dropWhile Char.isDigit
      if ed.isEmpty || !r2.isEmpty then Option.none
      else some (qmul mant (qzpow 10 (es * (digitsVal ed : Int))))
    | _ => Option.none

/-- Cleanup `str(x).strip().replace("$", "").replace(",", "")` from the
string branch of `money_to_float`. -/
def strip_money (s : String) : String :=
  ⟨(trimChars s.data).filter (fun c => !(c = '$' || c = ','))⟩

/-- Source lines 60-71.  `None` maps to `0.0`; an `int` above `1000` is
read as cents; other numbers pass through; strings are stripped of `$`
and `,` and parsed, the `except` branch returning `0.0`. -/
def money_to_float : MoneyIn → ℚ
  | MoneyIn.null => 0
  | MoneyIn.int i => if 1000 < i then round2 (qdiv (i : ℚ) 100) else (i : ℚ)
  | MoneyIn.num q => q
  | MoneyIn.str s =>
    match parsePyFloat (strip_money s) with
    | some q => round2 q
    | Option.none => 0

/-! ### Brand filter `is_arcteryx` (source lines 222-230) -/

/-- The apostrophe character, built by code point so the original
possessive spelling can be written down. -/
def apos : Char := Char.ofNat 39

/-- The lower-case possessive spelling of the brand. -/
def arcSpellApos : String := ⟨['a', 'r', 'c', apos, 't', 'e', 'r', 'y', 'x']⟩

/-- The capitalised possessive spelling, as it appears in feed data. -/
def arcCapApos : String := ⟨['A', 'r', 'c', apos, 't', 'e', 'r', 'y', 'x']⟩

/-- The check used by the source: the possessive spelling or the plain
spelling occurs as a substring. -/
def brandIn (s : String) : Bool := strHas s arcSpellApos || strHas s "arcteryx"

/-- Source lines 222-230: case-insensitive brand match on vendor, then
title (both spellings), then tags (no-punctuation spelling only). -/
def is_arcteryx (title : String) (vendor : Option String) (tags : List String) : Bool :=
  let t := lowerStr title
  let v := lowerStr (vendor.getD "")
  if brandIn v then true
  else if brandIn t then true
  else if tags.any (fun tag => strHas (lowerStr tag) "arcteryx") then true
  else false

/-! ### Data model (source lines 36-57)

Python `dict`s become association lists; `dictInsert` models
`d[k] = v` (replace in place, else append), which keeps keys unique and
preserves insertion order exactly as CPython does. -/

structure VariantState where
  id : Int
  title : String
  option1 : Option String
  option2 : Option String
  option3 : Option String
  sku : Option String
  price : ℚ
  available : Bool
  inventory_quantity : Option Int
deriving DecidableEq

structure ProductState where
  handle : String
  title : String
  vendor : Option String
  url : String
  image : Option String
  variants : List (String × VariantState)
deriving DecidableEq

abbrev Snapshot := List (String × ProductState)

/-- Lookup by key in an association list (models `d.get(k)` /
`d[k]`-with-presence on a Python dict). -/
def alookup {α : Type} (k : String) : List (String × α) → Option α
  | [] => Option.none
  | x :: rest => if x.1 = k then some x.2 else alookup k rest

/-- Models Python `d[k] = v`: replace the value at the first occurrence of
`k`, keeping its position, otherwise append. -/
def dictInsert {α : Type} (l : List (String × α)) (k : String) (v : α) :
    List (String × α) :=
  match l with
  | [] => [(k, v)]
  | x :: rest => if x.1 = k then (k, v) :: rest else x :: dictInsert rest k v

/-- The keys of an association list. -/
def keys {α : Type} (l : List (String × α)) : List String := l.map Prod.fst

/-! ### Diff engine `diff_and_report` (source lines 402-440)

`send_embed` calls are modelled as emitted `Event`s, in the order the
source fires them.  A `[QTY UP]` notification reuses the restock message
template in the source but is logged with its own tag, so it is kept as a
distinct constructor. -/

inductive Event where
  | newProduct (handle : String)
  | newVariant (handle vid : String)
  | priceChange (handle vid : String) (oldPrice newPrice : ℚ)
  | restock (handle vid : String)
  | quantityIncrease (handle vid : String)
deriving DecidableEq

/-- The threshold `1e-6` of the price comparison (the float literal is
exactly representable enough for every 2-decimal price the program
stores, so the rational `1/1000000` is a faithful model). -/
def eps : ℚ := mkRat 1 1000000

/-- Python `p or 0` on a float price: `0.0` is falsy, every other float is
truthy, so numerically this is the identity. -/
def orZero (q : ℚ) : ℚ := if q = 0 then 0 else q

/-- Source lines 421-440, body of the per-variant loop: price change,
then restock (out-of-stock to available only), then quantity increase. -/
def variant_events (handle vid : String) (vold vnew : VariantState) : List Event :=
  (if eps < qabs (qsub (orZero vnew.price) (orZero vold.price))
   then [Event.priceChange handle vid vold.price vnew.price] else [])
  ++ (if !vold.available && vnew.available then [Event.restock handle vid] else [])
  ++ (match vnew.inventory_quantity, vold.inventory_quantity with
      | some qn, some qo => if qo < qn then [Event.quantityIncrease handle vid] else []
      | _, _ => [])

/-- Source lines 415-440, body of the second product loop for a handle
present in both snapshots: new variant ids first, then the per-variant
comparisons. -/
def product_diff_events (handle : String) (pold pnew : ProductState) : List Event :=
  pnew.variants.filterMap (fun x =>
    if (alookup x.1 pold.variants).isSome then Option.none
    else some (Event.newVariant handle x.1))
  ++ pnew.variants.flatMap (fun x =>
    match alookup x.1 pold.variants with
    | Option.none => []
    | some vold => variant_events handle x.1 vold x.2)

/-- Source lines 404-407, first loop: a `NewProduct` event for every
handle of `new` absent from `old`. -/
def new_product_events (old new : Snapshot) : List Event :=
  new.filterMap (fun hp =>
    if (alookup hp.1 old).isSome then Option.none
    else some (Event.newProduct hp.1))

/-- Source lines 410-440, second loop: `old.get(handle)` is `None` (the
only falsy case, dataclasses are truthy) exactly when the handle is
absent, in which case the body is skipped. -/
def existing_product_events (old new : Snapshot) : List Event :=
  new.flatMap (fun hp =>
    match alookup hp.1 old with
    | Option.none => []
    | some pold => product_diff_events hp.1 pold hp.2)

/-- Source lines 402-440: the full event sequence of one diff run. -/
def diff_and_report (old new : Snapshot) : List Event :=
  new_product_events old new ++ existing_product_events old new

/-- Counts the events satisfying `f`. -/
def countEv (f : Event → Bool) (l : List Event) : ℕ := (l.filter f).length

/-- Recognises a `NewProduct` event for handle `h`. -/
def isNewProductFor (h : String) : Event → Bool
  | Event.newProduct h' => h' = h
  | _ => false

/-- Recognises a `NewVariant` event for handle `h`. -/
def isNewVariantFor (h : String) : Event → Bool
  | Event.newVariant h' _ => h' = h
  | _ => false

/-! ### Raw records and normalization (source lines 171-219)

A raw JSON product record is modelled by the fields the program reads.
The `images` field is represented by its extracted first-image URL — the
value of `try_get(p, "images", 0, "src")` on the feed path and of
`try_get(p, "images", 0)` on the detail path.  The `id` of a variant is taken
as present (the source would crash in `int(...)` otherwise), and
`inventory_quantity` is `some n` exactly when the JSON value is an
integer. -/

structure RawVariant where
  id : Int
  title : Option String
  option1 : Option String
  option2 : Option String
  option3 : Option String
  sku : Option String
  price : MoneyIn
  available : Option Bool
  inventory_quantity : Option Int

structure RawProduct where
  handle : Option String
  title : Option String
  vendor : Option String
  tags : List String
  url : Option String
  image0 : Option String
  variants : List RawVariant

/-- The configured storefront base (source line 24). -/
def BASE : String := "https://store.miyaradventures.com/"

/-- Models the canonical product url join on the base address. -/
def product_url (handle : String) : String :=
  "https://store.miyaradventures.com/products/" ++ handle

/-- The shared per-variant normalization (source lines 178-190 and
203-215, identical in both entry points): `title or ""`,
`money_to_float` on the price, `bool(available)` defaulting to false,
and the inventory quantity kept only when it is an integer. -/
def normalize_variant (v : RawVariant) : String × VariantState :=
  (toString v.id,
   { id := v.id
     title := v.title.getD ""
     option1 := v.option1
     option2 := v.option2
     option3 := v.option3
     sku := v.sku
     price := money_to_float v.price
     available := v.available.getD false
     inventory_quantity := v.inventory_quantity })

/-- Builds the variants dict, `variants[vid] = VariantState(...)`, over
the raw variant list. -/
def normalize_variants (vs : List RawVariant) : List (String × VariantState) :=
  vs.foldl (fun acc v =>
    let kv := normalize_variant v
    dictInsert acc kv.1 kv.2) []

/-- Source lines 171-194.  `if not handle` in Python is true for both
`None` and the empty string. -/
def normalize_product_from_products_json (p : RawProduct) : Option ProductState :=
  match p.handle with
  | Option.none => Option.none
  | some handle =>
    if handle = "" then Option.none
    else some
      { handle := handle
        title := p.title.getD ""
        vendor := p.vendor
        url := product_url handle
        image := p.image0
        variants := normalize_variants p.variants }

/-- Source lines 196-219.  `p.get("url") or urljoin(...)`: an absent or
empty url field falls back to the canonical product url. -/
def normalize_product_from_js (p : RawProduct) : Option ProductState :=
  match p.handle with
  | Option.none => Option.none
  | some handle =>
    if handle = "" then Option.none
    else some
      { handle := handle
        title := p.title.getD ""
        vendor := p.vendor
        url := match p.url with
          | some u => if u = "" then product_url handle else u
          | Option.none => product_url handle
        image := p.image0
        variants := normalize_variants p.variants }

/-! ### `build_snapshot` (source lines 346-399)

The network is abstracted: `feed` is what
`fetch_products_via_products_json()` returned, `detail h` is the parsed
body of `GET /products/h.js` (`none` for every falsy `get_json` outcome),
and `crawlHandles` is what `crawl_collections_all` returned. -/

structure Fetchers where
  feed : List RawProduct
  detail : String → Option RawProduct
  crawlHandles : List String

/-- Source lines 360-370: refresh `image`, `available` and integer
`inventory_quantity` of already-normalized feed variants from the
per-handle `.js` detail record; keep feed values when the fetch or a
per-variant lookup fails.  `jsn.image or ps.image` treats `None` and `""`
as falsy. -/
def enrich_from_js (detail : String → Option RawProduct) (ps : ProductState) :
    ProductState :=
  match detail ps.handle with
  | Option.none => ps
  | some js =>
    match normalize_product_from_js js with
    | Option.none => ps
    | some jsn =>
      { ps with
        image := match jsn.image with
          | some s => if s = "" then ps.image else some s
          | Option.none => ps.image
        variants := ps.variants.map (fun x =>
          match alookup x.1 jsn.variants with
          | Option.none => x
          | some jsv =>
            (x.1,
             { x.2 with
               available := jsv.available
               inventory_quantity := match jsv.inventory_quantity with
                 | some n => some n
                 | Option.none => x.2.inventory_quantity })) }

/-- Source lines 350-372, Strategy A: brand-filter each feed record
(`p.get("title","")` on a missing or null title reads as `""`),
normalize it, enrich from the detail endpoint, and store it under its
handle.  The source has no zero-variant check on this path. -/
def snapshot_via_products_json (F : Fetchers) : Snapshot :=
  F.feed.foldl (fun snap p =>
    if !is_arcteryx (p.title.getD "") p.vendor p.tags then snap
    else
      match normalize_product_from_products_json p with
      | Option.none => snap
      | some ps =>
        let ps2 := enrich_from_js F.detail ps
        dictInsert snap ps2.handle ps2) []

/-- Source lines 377-398, Strategy B: for each crawled handle fetch the
detail record, skip fetch failures, brand-filter failures, normalization
failures and zero-variant products, and store the rest. -/
def snapshot_via_collections (F : Fetchers) : Snapshot :=
  F.crawlHandles.foldl (fun snap h =>
    match F.detail h with
    | Option.none => snap
    | some js =>
      if !is_arcteryx (js.title.getD "") js.vendor js.tags then snap
      else
        match normalize_product_from_js js with
        | Option.none => snap
        | some ps =>
          if ps.variants = [] then snap
          else dictInsert snap ps.handle ps) []

/-- Source lines 346-399: try Strategy A; if the feed was empty or no
feed record qualified, fall through to Strategy B.  The boolean records
whether the fallback ran. -/
def build_snapshot (F : Fetchers) : Snapshot × Bool :=
  if F.feed.isEmpty then (snapshot_via_collections F, true)
  else
    let snap := snapshot_via_products_json F
    if snap = [] then (snapshot_via_collections F, true)
    else (snap, false)

/-! ### Snapshot store (source lines 233-274)

`save_snapshot` / `load_snapshot` exchange a JSON document through a
file; `json.dump` and `json.load` round-trip JSON values exactly
(object key order included), so the file transport is modelled at the
value level by the type `JVal`.  Loading applies `VariantState(**v)` and
direct key accesses inside one `try`, so the model parses into the typed
state and degrades to the empty snapshot on any failure; the parse also
checks the serialized types, which the dynamically typed source only
checks where it would raise — the round-trip theorem exercises exactly
the save-produced values, where the two agree. -/

inductive JVal where
  | null
  | bool (b : Bool)
  | int (i : Int)
  | num (q : ℚ)
  | str (s : String)
  | obj (fields : List (String × JVal))

/-- An optional string field, as `json.dump` writes it. -/
def jopt : Option String → JVal
  | Option.none => JVal.null
  | some s => JVal.str s

/-- An optional integer field, as `json.dump` writes it. -/
def joptInt : Option Int → JVal
  | Option.none => JVal.null
  | some i => JVal.int i

/-- Serializes one variant, `asdict(v)` (field order is declaration
order). -/
def dump_variant (v : VariantState) : JVal :=
  JVal.obj
    [("id", JVal.int v.id), ("title", JVal.str v.title),
     ("option1", jopt v.option1), ("option2", jopt v.option2),
     ("option3", jopt v.option3), ("sku", jopt v.sku),
     ("price", JVal.num v.price), ("available", JVal.bool v.available),
     ("inventory_quantity", joptInt v.inventory_quantity)]

/-- Serializes one product of the `serializable` dict (source lines
257-264). -/
def dump_product (p : ProductState) : JVal :=
  JVal.obj
    [("handle", JVal.str p.handle), ("title", JVal.str p.title),
     ("vendor", jopt p.vendor), ("url", JVal.str p.url),
     ("image", jopt p.image),
     ("variants", JVal.obj (p.variants.map (fun vv =>
       (vv.1, dump_variant vv.2))))]

/-- Source lines 256-266: the `serializable` document written by
`save_snapshot`. -/
def save_snapshot (snap : Snapshot) : JVal :=
  JVal.obj (snap.map (fun hp => (hp.1, dump_product hp.2)))

/-- A required string field (`pdata["handle"]` and friends). -/
def jgetStr (l : List (String × JVal)) (k : String) : Option String :=
  match alookup k l with
  | some (JVal.str s) => some s
  | _ => Option.none

/-- An optional string field (`pdata.get("vendor")`: missing and `null`
both read as `None`). -/
def jgetOptStr (l : List (String × JVal)) (k : String) : Option String :=
  match alookup k l with
  | some (JVal.str s) => some s
  | _ => Option.none

/-- Reads back one serialized variant (`VariantState(**v)`). -/
def parse_variant : JVal → Option VariantState
  | JVal.obj l => do
    let ji ← alookup "id" l
    let i ← match ji with | JVal.int i => some i | _ => Option.none
    let t ← jgetStr l "title"
    let o1 ← match alookup "option1" l with
      | some JVal.null => some Option.none
      | some (JVal.str s) => some (some s)
      | _ => Option.none
    let o2 ← match alookup "option2" l with
      | some JVal.null => some Option.none
      | some (JVal.str s) => some (some s)
      | _ => Option.none
    let o3 ← match alookup "option3" l with
      | some JVal.null => some Option.none
      | some (JVal.str s) => some (some s)
      | _ => Option.none
    let sk ← match alookup "sku" l with
      | some JVal.null => some Option.none
      | some (JVal.str s) => some (some s)
      | _ => Option.none
    let pr ← match alookup "price" l with
      | some (JVal.num q) => some q
      | _ => Option.none
    let av ← match alookup "available" l with
      | some (JVal.bool b) => some b
      | _ => Option.none
    let iq ← match alookup "inventory_quantity" l with
      | some JVal.null => some Option.none
      | some (JVal.int n) => some (some n)
      | _ => Option.none
    pure { id := i, title := t, option1 := o1, option2 := o2, option3 := o3,
           sku := sk, price := pr, available := av, inventory_quantity := iq }
  | _ => Option.none

/-- The dict comprehension over `pdata["variants"].items()`. -/
def parse_variants_map : List (String × JVal) → Option (List (String × VariantState))
  | [] => some []
  | (vid, vj) :: rest => do
    let v ← parse_variant vj
    let r ← parse_variants_map rest
    pure ((vid, v) :: r)

/-- Reads back one serialized product (source lines 243-247). -/
def parse_product : JVal → Option ProductState
  | JVal.obj l => do
    let vj ← alookup "variants" l
    let vl ← match vj with | JVal.obj vl => some vl | _ => Option.none
    let variants ← parse_variants_map vl
    let handle ← jgetStr l "handle"
    let title ← jgetStr l "title"
    let url ← jgetStr l "url"
    pure { handle := handle, title := title, vendor := jgetOptStr l "vendor",
           url := url, image := jgetOptStr l "image", variants := variants }
  | _ => Option.none

/-- The loop over `raw.items()` in `load_snapshot`. -/
def parse_snapshot_items : List (String × JVal) → Option Snapshot
  | [] => some []
  | (h, pj) :: rest => do
    let p ← parse_product pj
    let r ← parse_snapshot_items rest
    pure ((h, p) :: r)

/-- Source lines 233-252: deserialize the document; any failure inside
the `try` degrades to the empty snapshot. -/
def load_snapshot (raw : JVal) : Snapshot :=
  match raw with
  | JVal.obj l => (parse_snapshot_items l).getD []
  | _ => []

/-! ### Concrete states used by the claim instances -/

/-- A variant that is out of stock with zero units on hand. -/
def vOutOfStock : VariantState :=
  { id := 7, title := "", option1 := Option.none, option2 := Option.none,
    option3 := Option.none, sku := some "S1", price := 100, available := false,
    inventory_quantity := some 0 }

/-- The same variant after a restock to three units. -/
def vRestocked : VariantState :=
  { vOutOfStock with available := true, inventory_quantity := some 3 }

/-- A one-variant product holding `vOutOfStock`. -/
def pBefore : ProductState :=
  { handle := "h", title := "P", vendor := Option.none, url := "u",
    image := Option.none, variants := [("7", vOutOfStock)] }

/-- The same product holding `vRestocked`. -/
def pAfter : ProductState := { pBefore with variants := [("7", vRestocked)] }

/-- A product with two variants, for the brand-new-product scenario. -/
def pTwoVariants : ProductState :=
  { handle := "h", title := "P", vendor := Option.none, url := "u",
    image := Option.none,
    variants := [("1", { vOutOfStock with id := 1 }),
                 ("2", { vOutOfStock with id := 2 })] }

/-- A feed record that passes the brand filter but carries no variants. -/
def rawNoVariants : RawProduct :=
  { handle := some "x", title := some "Arcteryx Jacket", vendor := Option.none,
    tags := [], url := Option.none, image0 := Option.none, variants := [] }

/-- A run whose feed returns only `rawNoVariants` and whose detail and
crawl endpoints return nothing. -/
def fetchersNoVariants : Fetchers :=
  { feed := [rawNoVariants], detail := fun _ => Option.none, crawlHandles := [] }

/-- What Strategy A makes of `rawNoVariants`. -/
def psNoVariants : ProductState :=
  { handle := "x", title := "Arcteryx Jacket", vendor := Option.none,
    url := product_url "x", image := Option.none, variants := [] }

/-- Key uniqueness of a snapshot and of the variant map of each product —
what being (the image of) a Python dict guarantees. -/
def wf (S : Snapshot) : Prop :=
  (keys S).Nodup ∧ ∀ hp ∈ S, (keys hp.2.variants).Nodup

/-! ## Theorems

First the bridges from the kernel-reducible rational operations to the
standard ones, then helper lemmas, then one theorem per claim. -/

theorem qadd_eq (a b : ℚ) : qadd a b = a + b := by
  have ha : (a.den : ℚ) ≠ 0 := Nat.cast_ne_zero.mpr a.den_nz
  have hb : (b.den : ℚ) ≠ 0 := Nat.cast_ne_zero.mpr b.den_nz
  rw [qadd, Rat.mkRat_eq_div]
  push_cast
  conv_rhs => rw [← Rat.num_div_den a, ← Rat.num_div_den b]
  field_simp

theorem qsub_eq (a b : ℚ) : qsub a b = a - b := by
  have ha : (a.den : ℚ) ≠ 0 := Nat.cast_ne_zero.mpr a.den_nz
  have hb : (b.den : ℚ) ≠ 0 := Nat.cast_ne_zero.mpr b.den_nz
  rw [qsub, Rat.mkRat_eq_div]
  push_cast
  conv_rhs => rw [← Rat.num_div_den a, ← Rat.num_div_den b]
  field_simp
  ring

theorem qmul_eq (a b : ℚ) : qmul a b = a * b := by
  have ha : (a.den : ℚ) ≠ 0 := Nat.cast_ne_zero.mpr a.den_nz
  have hb : (b.den : ℚ) ≠ 0 := Nat.cast_ne_zero.mpr b.den_nz
  rw [qmul, Rat.mkRat_eq_div]
  push_cast
  conv_rhs => rw [← Rat.num_div_den a, ← Rat.num_div_den b]
  field_simp

theorem qdiv_eq (a b : ℚ) : qdiv a b = a / b := by
  have ha : (a.den : ℚ) ≠ 0 := Nat.cast_ne_zero.mpr a.den_nz
  have hb : (b.den : ℚ) ≠ 0 := Nat.cast_ne_zero.mpr b.den_nz
  rw [qdiv, Rat.divInt_eq_div]
  push_cast
  rcases eq_or_ne b 0 with rb | rb
  · subst rb; simp
  · have hbn : (b.num : ℚ) ≠ 0 := by simpa using Rat.num_ne_zero.mpr rb
    conv_rhs => rw [← Rat.num_div_den a, ← Rat.num_div_den b]
    field_simp

theorem qinv_eq (q : ℚ) : qinv q = q⁻¹ := by
  rw [qinv, Rat.divInt_eq_div]
  rcases eq_or_ne q 0 with rfl | hq
  · simp
  · rw [inv_eq_one_div]
    conv_rhs => rw [← Rat.num_div_den q]
    rw [one_div_div]
    push_cast
    rfl

theorem qabs_eq (q : ℚ) : qabs q = |q| := by
  rw [qabs, Rat.mkRat_eq_div]
  conv_rhs => rw [← Rat.num_div_den q]
  rw [abs_div]
  congr 1
  · push_cast [Int.cast_natAbs]
    rfl
  · rw [abs_of_nonneg (by positivity : (0 : ℚ) ≤ (q.den : ℚ))]

theorem qpow_eq (q : ℚ) (n : ℕ) : qpow q n = q ^ n := by
  induction n with
  | zero => simp [qpow]
  | succ n ih => simp [qpow, qmul_eq, ih, pow_succ]

theorem qzpow_eq (q : ℚ) (z : ℤ) : qzpow q z = q ^ z := by
  cases z with
  | ofNat n => simp [qzpow, qpow_eq]
  | negSucc n => simp [qzpow, qinv_eq, qpow_eq, zpow_negSucc]

/-- Evaluating `rhe` at an integer gives back that integer. -/
theorem rhe_intCast (j : ℤ) : rhe ((j : ℚ)) = j := by
  simp [rhe, Rat.num_intCast, Rat.den_intCast, Int.fdiv_one]

/-- C5: for a variant present in both snapshots whose old state is
unavailable with quantity 0 and whose new state is available with
quantity 3, all other fields unchanged, `diff_and_report` emits exactly
two events for that variant: one Restock and one QuantityIncrease. -/
theorem claim_C5_restock_and_qty :
    diff_and_report [("h", pBefore)] [("h", pAfter)]
      = [Event.restock "h" "7", Event.quantityIncrease "h" "7"] := by
  decide

/-- C6: `money_to_float` maps the integer 12345 to 123.45 and the string
"45.00" to 45.00; every integer strictly greater than 1000 is divided by
100 (the 2-fraction-digit rounding is exact on cents), and every integer
at most 1000 is returned as-is. -/
theorem claim_C6_money_normalization :
    (∀ i : ℤ, 1000 < i → money_to_float (MoneyIn.int i) = (i : ℚ) / 100)
    ∧ (∀ i : ℤ, i ≤ 1000 → money_to_float (MoneyIn.int i) = (i : ℚ))
    ∧ money_to_float (MoneyIn.int 12345) = (123.45 : ℚ)
    ∧ money_to_float (MoneyIn.str "45.00") = (45 : ℚ) := by
  have hbig : ∀ i : ℤ, 1000 < i → money_to_float (MoneyIn.int i) = (i : ℚ) / 100 := by
    intro i h
    simp only [money_to_float, if_pos h, round2, qmul_eq, qdiv_eq]
    rw [div_mul_cancel₀ ((i : ℚ)) (by norm_num : (100 : ℚ) ≠ 0), rhe_intCast]
  refine ⟨hbig, ?_, ?_, ?_⟩
  · intro i h
    simp only [money_to_float, if_neg (not_lt.mpr h)]
  · rw [hbig 12345 (by norm_num)]
    norm_num
  · decide

/-- Witness for C6 at the concrete inputs 2000 and 50. -/
theorem claim_C6_money_normalization_witness :
    money_to_float (MoneyIn.int 2000) = ((2000 : ℤ) : ℚ) / 100
    ∧ money_to_float (MoneyIn.int 50) = ((50 : ℤ) : ℚ) :=
  ⟨claim_C6_money_normalization.1 2000 (by norm_num),
   claim_C6_money_normalization.2.1 50 (by norm_num)⟩

/-- C9: `money_to_float` is total; a `None` price and a string the float
parser rejects both normalize to 0. -/
theorem claim_C9_money_total :
    money_to_float MoneyIn.null = 0
    ∧ ∀ s : String, parsePyFloat (strip_money s) = Option.none →
        money_to_float (MoneyIn.str s) = 0 := by
  refine ⟨rfl, fun s h => ?_⟩
  simp [money_to_float, h]

/-- Witness for C9 at the non-numeric string "N/A". -/
theorem claim_C9_money_total_witness :
    parsePyFloat (strip_money "N/A") = Option.none
    ∧ money_to_float (MoneyIn.str "N/A") = 0 :=
  ⟨by decide, claim_C9_money_total.2 "N/A" (by decide)⟩

/-- C10: with a non-matching title and vendor the tag branch rejects the
possessive-apostrophe spelling (a tag list holding only that spelling
yields `false`), while the same spelling is accepted in the vendor and in
the title. -/
theorem claim_C10_tag_spelling :
    (∀ (title : String) (vendor : Option String),
      brandIn (lowerStr (vendor.getD "")) = false →
      brandIn (lowerStr title) = false →
      is_arcteryx title vendor [arcCapApos] = false)
    ∧ is_arcteryx "" (some arcCapApos) [] = true
    ∧ is_arcteryx arcCapApos Option.none [] = true := by
  refine ⟨fun title vendor h1 h2 => ?_, by decide, by decide⟩
  simp only [is_arcteryx, h1, h2, if_false]
  decide

/-- Witness for C10 with empty title and vendor. -/
theorem claim_C10_tag_spelling_witness :
    is_arcteryx "" Option.none [arcCapApos] = false :=
  claim_C10_tag_spelling.1 "" Option.none (by decide) (by decide)

/-! ### Association-list lemmas -/

theorem alookup_isSome_of_mem {α : Type} {h : String} {p : α}
    {l : List (String × α)} (hm : (h, p) ∈ l) : (alookup h l).isSome := by
  induction l with
  | nil => cases hm
  | cons x rest ih =>
    rw [alookup]
    by_cases hx : x.1 = h
    · simp [hx]
    · rw [if_neg hx]
      rcases List.mem_cons.mp hm with he | hm'
      · exact absurd (congrArg Prod.fst he.symm) hx
      · exact ih hm'

theorem mem_keys_of_mem {α : Type} {h : String} {p : α}
    {l : List (String × α)} (hm : (h, p) ∈ l) : h ∈ keys l :=
  List.mem_map_of_mem Prod.fst hm

theorem alookup_eq_of_nodup {α : Type} {h : String} {p : α}
    {l : List (String × α)} (hn : (keys l).Nodup) (hm : (h, p) ∈ l) :
    alookup h l = some p := by
  induction l with
  | nil => cases hm
  | cons x rest ih =>
    have hn' := hn
    rw [keys, List.map_cons, List.nodup_cons] at hn'
    rcases List.mem_cons.mp hm with he | hm'
    · rw [← he, alookup, if_pos rfl]
    · have hx : x.1 ≠ h := by
        intro e
        exact hn'.1 (e ▸ mem_keys_of_mem hm')
      rw [alookup, if_neg hx]
      exact ih hn'.2 hm'

theorem eps_pos : 0 < eps := by
  rw [eps, Rat.mkRat_eq_div]
  norm_num

theorem countEv_append (f : Event → Bool) (a b : List Event) :
    countEv f (a ++ b) = countEv f a + countEv f b := by
  simp [countEv, List.filter_append]

theorem countEv_eq_zero {f : Event → Bool} {l : List Event}
    (h : ∀ e ∈ l, f e = false) : countEv f l = 0 := by
  induction l with
  | nil => rfl
  | cons e rest ih =>
    rw [countEv, List.filter_cons, h e (List.mem_cons_self e rest)]
    simp only [Bool.false_eq_true, if_false]
    exact ih fun e' he' => h e' (List.mem_cons_of_mem e he')

/-! ### Diff-engine lemmas -/

/-- Comparing a variant state with itself fires no event. -/
theorem variant_events_self (handle vid : String) (v : VariantState) :
    variant_events handle vid v v = [] := by
  have h1 : ¬ eps < qabs (qsub (orZero v.price) (orZero v.price)) := by
    rw [qsub_eq, sub_self, qabs_eq, abs_zero]
    exact not_lt.mpr (le_of_lt eps_pos)
  have h2 : (!v.available && v.available) = false := by
    cases v.available <;> rfl
  rw [variant_events, if_neg h1, h2]
  simp only [Bool.false_eq_true, if_false, List.nil_append]
  cases v.inventory_quantity with
  | none => rfl
  | some n => simp [lt_irrefl]

/-- Comparing a product with itself fires no event when its variant keys
are unique. -/
theorem product_diff_events_self (handle : String) (p : ProductState)
    (hn : (keys p.variants).Nodup) : product_diff_events handle p p = [] := by
  rw [product_diff_events]
  refine List.append_eq_nil.mpr ⟨?_, ?_⟩
  · apply List.filterMap_eq_nil_iff.mpr
    intro x hx
    rw [if_pos (alookup_isSome_of_mem (p := x.2) hx)]
  · apply List.flatMap_eq_nil_iff.mpr
    intro x hx
    rw [alookup_eq_of_nodup hn (p := x.2) hx]
    exact variant_events_self handle x.1 x.2

/-- C3: diffing a snapshot against itself emits no event at all. -/
theorem claim_C3_diff_self (S : Snapshot) (h : wf S) :
    diff_and_report S S = [] := by
  rw [diff_and_report]
  refine List.append_eq_nil.mpr ⟨?_, ?_⟩
  · apply List.filterMap_eq_nil_iff.mpr
    intro hp hmem
    rw [if_pos (alookup_isSome_of_mem (p := hp.2) hmem)]
  · apply List.flatMap_eq_nil_iff.mpr
    intro hp hmem
    rw [alookup_eq_of_nodup h.1 (p := hp.2) hmem]
    exact product_diff_events_self hp.1 hp.2 (h.2 hp hmem)

/-- Witness for C3 on a concrete one-product snapshot. -/
theorem claim_C3_diff_self_witness :
    wf [("h", pBefore)] ∧ diff_and_report [("h", pBefore)] [("h", pBefore)] = [] :=
  ⟨by constructor <;> decide, claim_C3_diff_self _ (by constructor <;> decide)⟩

/-- C4: diffing the empty snapshot against `S` yields exactly the list of
`NewProduct` events of the handles of `S`, in order — `|S|` events, one per
handle, and nothing else. -/
theorem claim_C4_diff_from_empty (S : Snapshot) :
    diff_and_report [] S = S.map (fun hp => Event.newProduct hp.1)
    ∧ (diff_and_report [] S).length = S.length := by
  have h1 : diff_and_report [] S = S.map (fun hp => Event.newProduct hp.1) := by
    rw [diff_and_report, new_product_events, existing_product_events]
    have h2 : S.flatMap (fun hp =>
        match alookup hp.1 ([] : Snapshot) with
        | Option.none => []
        | some pold => product_diff_events hp.1 pold hp.2) = [] :=
      List.flatMap_eq_nil_iff.mpr fun hp _ => rfl
    rw [h2, List.append_nil]
    simp only [alookup, Option.isSome_none, Bool.false_eq_true, if_false]
    exact congrFun (List.filterMap_eq_map fun hp => Event.newProduct hp.1) S
  exact ⟨h1, by rw [h1, List.length_map]⟩

/-- Every event the per-variant comparison emits is a price change, a
restock, or a quantity increase for that same handle and variant id. -/
theorem variant_events_cases (h' vid : String) (vold vnew : VariantState)
    (e : Event) (he : e ∈ variant_events h' vid vold vnew) :
    e = Event.priceChange h' vid vold.price vnew.price
    ∨ e = Event.restock h' vid ∨ e = Event.quantityIncrease h' vid := by
  rw [variant_events] at he
  rcases List.mem_append.mp he with h1 | h1
  · rcases List.mem_append.mp h1 with h2 | h2
    · left
      split_ifs at h2 <;> simp_all
    · right; left
      split_ifs at h2 <;> simp_all
  · right; right
    split at h1
    · split_ifs at h1 <;> simp_all
    · cases h1

theorem product_diff_events_not_newProduct (h h' : String)
    (pold pnew : ProductState) (e : Event)
    (he : e ∈ product_diff_events h' pold pnew) :
    isNewProductFor h e = false := by
  rw [product_diff_events] at he
  rcases List.mem_append.mp he with h1 | h1
  · rcases List.mem_filterMap.mp h1 with ⟨x, _, hfe⟩
    by_cases hs : (alookup x.1 pold.variants).isSome
    · rw [if_pos hs] at hfe
      cases hfe
    · rw [if_neg hs] at hfe
      cases hfe
      rfl
  · rcases List.mem_flatMap.mp h1 with ⟨x, _, hin⟩
    cases halk : alookup x.1 pold.variants with
    | none => rw [halk] at hin; cases hin
    | some vold =>
      rw [halk] at hin
      rcases variant_events_cases _ _ _ _ _ hin with rfl | rfl | rfl <;> rfl

theorem product_diff_events_newVariant_ne (h h' : String) (hne : h' ≠ h)
    (pold pnew : ProductState) (e : Event)
    (he : e ∈ product_diff_events h' pold pnew) :
    isNewVariantFor h e = false := by
  rw [product_diff_events] at he
  rcases List.mem_append.mp he with h1 | h1
  · rcases List.mem_filterMap.mp h1 with ⟨x, _, hfe⟩
    by_cases hs : (alookup x.1 pold.variants).isSome
    · rw [if_pos hs] at hfe
      cases hfe
    · rw [if_neg hs] at hfe
      cases hfe
      simp [isNewVariantFor, hne]
  · rcases List.mem_flatMap.mp h1 with ⟨x, _, hin⟩
    cases halk : alookup x.1 pold.variants with
    | none => rw [halk] at hin; cases hin
    | some vold =>
      rw [halk] at hin
      rcases variant_events_cases _ _ _ _ _ hin with rfl | rfl | rfl <;> rfl

theorem existing_no_newProduct (h : String) (old new : Snapshot) :
    countEv (isNewProductFor h) (existing_product_events old new) = 0 := by
  apply countEv_eq_zero
  intro e he
  rcases List.mem_flatMap.mp (by rw [existing_product_events] at he; exact he)
    with ⟨hp, _, hin⟩
  cases halk : alookup hp.1 old with
  | none => rw [halk] at hin; cases hin
  | some pold =>
    rw [halk] at hin
    exact product_diff_events_not_newProduct h hp.1 pold hp.2 e hin

theorem existing_no_newVariant (h : String) (old new : Snapshot)
    (habs : alookup h old = Option.none) :
    countEv (isNewVariantFor h) (existing_product_events old new) = 0 := by
  apply countEv_eq_zero
  intro e he
  rcases List.mem_flatMap.mp (by rw [existing_product_events] at he; exact he)
    with ⟨hp, _, hin⟩
  cases halk : alookup hp.1 old with
  | none => rw [halk] at hin; cases hin
  | some pold =>
    rw [halk] at hin
    have hne : hp.1 ≠ h := by
      intro e'
      rw [e', habs] at halk
      cases halk
    exact product_diff_events_newVariant_ne h hp.1 hne pold hp.2 e hin

theorem new_product_no_newVariant (h : String) (old new : Snapshot) :
    countEv (isNewVariantFor h) (new_product_events old new) = 0 := by
  apply countEv_eq_zero
  intro e he
  rcases List.mem_filterMap.mp (by rw [new_product_events] at he; exact he)
    with ⟨hp, _, hfe⟩
  by_cases hs : (alookup hp.1 old).isSome
  · rw [if_pos hs] at hfe
    cases hfe
  · rw [if_neg hs] at hfe
    cases hfe
    rfl

theorem new_product_zero_of_not_mem (h : String) (old new : Snapshot)
    (hk : h ∉ keys new) :
    countEv (isNewProductFor h) (new_product_events old new) = 0 := by
  apply countEv_eq_zero
  intro e he
  rcases List.mem_filterMap.mp (by rw [new_product_events] at he; exact he)
    with ⟨hp, hmem, hfe⟩
  by_cases hs : (alookup hp.1 old).isSome
  · rw [if_pos hs] at hfe
    cases hfe
  · rw [if_neg hs] at hfe
    cases hfe
    have hne : hp.1 ≠ h := fun e' => hk (e' ▸ mem_keys_of_mem (p := hp.2) hmem)
    simp [isNewProductFor, hne]

theorem new_product_one (old new : Snapshot) (h : String) (p : ProductState)
    (hn : (keys new).Nodup) (hmem : (h, p) ∈ new)
    (habs : alookup h old = Option.none) :
    countEv (isNewProductFor h) (new_product_events old new) = 1 := by
  induction new with
  | nil => cases hmem
  | cons x rest ih =>
    have hn' : x.1 ∉ keys rest ∧ (keys rest).Nodup := by
      rw [keys, List.map_cons, List.nodup_cons] at hn
      exact hn
    rw [new_product_events, List.filterMap_cons]
    rcases List.mem_cons.mp hmem with he | hm'
    · have hx1 : x.1 = h := (congrArg Prod.fst he).symm
      rw [hx1, habs]
      simp only [Option.isSome_none, Bool.false_eq_true, if_false]
      rw [countEv, List.filter_cons]
      have : isNewProductFor h (Event.newProduct h) = true := by
        simp [isNewProductFor]
      rw [this]
      simp only [if_true, List.length_cons]
      have h0 : countEv (isNewProductFor h) (new_product_events old rest) = 0 :=
        new_product_zero_of_not_mem h old rest (hx1 ▸ hn'.1)
      rw [new_product_events] at h0
      rw [countEv] at h0
      rw [h0]
    · have hx1 : x.1 ≠ h := fun e' => hn'.1 (e' ▸ mem_keys_of_mem (p := p) hm')
      have hrest : countEv (isNewProductFor h)
          (List.filterMap (fun hp =>
            if (alookup hp.1 old).isSome then Option.none
            else some (Event.newProduct hp.1)) rest) = 1 := by
        have := ih hn'.2 hm'
        rw [new_product_events] at this
        exact this
      by_cases hs : (alookup x.1 old).isSome
      · rw [if_pos hs]
        exact hrest
      · rw [if_neg hs]
        rw [countEv, List.filter_cons]
        have : isNewProductFor h (Event.newProduct x.1) = false := by
          simp [isNewProductFor, hx1]
        rw [this]
        simp only [Bool.false_eq_true, if_false]
        exact hrest

/-- C2 counterexample: a brand-new product with two variants produces a
single NewProduct event and no NewVariant event at all — not one
NewVariant per variant id. -/
theorem claim_C2_counterexample :
    pTwoVariants.variants.length = 2
    ∧ diff_and_report [] [("h", pTwoVariants)] = [Event.newProduct "h"]
    ∧ Event.newVariant "h" "1" ∉ diff_and_report [] [("h", pTwoVariants)] := by
  refine ⟨rfl, by decide, by decide⟩

/-- C2 amended: for every handle present in `new` and absent from `old`,
`diff_and_report` emits exactly one NewProduct notification and zero
NewVariant notifications for that handle, whatever its variant count;
NewVariant events only arise for handles present in both snapshots. -/
theorem claim_C2_new_product_events (old new : Snapshot) (h : String)
    (p : ProductState) (hmem : (h, p) ∈ new)
    (habs : alookup h old = Option.none) (hn : (keys new).Nodup) :
    countEv (isNewProductFor h) (diff_and_report old new) = 1
    ∧ countEv (isNewVariantFor h) (diff_and_report old new) = 0 := by
  constructor
  · rw [diff_and_report, countEv_append,
      new_product_one old new h p hn hmem habs, existing_no_newProduct]
  · rw [diff_and_report, countEv_append,
      new_product_no_newVariant, existing_no_newVariant h old new habs]

/-- Witness for the amended C2 on a concrete brand-new product. -/
theorem claim_C2_new_product_events_witness :
    countEv (isNewProductFor "h") (diff_and_report [] [("h", pTwoVariants)]) = 1
    ∧ countEv (isNewVariantFor "h") (diff_and_report [] [("h", pTwoVariants)]) = 0 :=
  claim_C2_new_product_events [] [("h", pTwoVariants)] "h" pTwoVariants
    (List.mem_singleton.mpr rfl) rfl (by decide)

/-! ### Acquisition-strategy claims -/

/-- C8: Strategy A always runs first and is kept whenever it qualifies at
least one product; Strategy B runs exactly when the Strategy A snapshot is
empty — whether because the feed was empty or because every feed record
was rejected (by the brand filter or normalization). -/
theorem claim_C8_strategy_fallback (F : Fetchers) :
    build_snapshot F =
      (if snapshot_via_products_json F = []
       then (snapshot_via_collections F, true)
       else (snapshot_via_products_json F, false)) := by
  rw [build_snapshot]
  cases hf : F.feed with
  | nil =>
    have hA : snapshot_via_products_json F = [] := by
      rw [snapshot_via_products_json, hf]
      rfl
    rw [hA]
    simp
  | cons x rest =>
    simp only [List.isEmpty_cons, Bool.false_eq_true, if_false]

/-- C1, evaluated at the failing input: a feed whose only record is a
brand-matching product with an empty variant list makes Strategy A store
a zero-variant product in the snapshot (the zero-variant guard exists
only on the Strategy B path), violating the claimed invariant. -/
theorem claim_C1_zero_variants_persisted :
    (build_snapshot fetchersNoVariants).1 = [("x", psNoVariants)]
    ∧ (build_snapshot fetchersNoVariants).2 = false
    ∧ psNoVariants.variants = [] :=
  ⟨rfl, rfl, rfl⟩

/-! ### Snapshot-store round trip -/

theorem parse_dump_variant (v : VariantState) :
    parse_variant (dump_variant v) = some v := by
  rcases v with ⟨i, t, o1, o2, o3, sk, pr, av, iq⟩
  rcases o1 <;> rcases o2 <;> rcases o3 <;> rcases sk <;> rcases iq <;> rfl

theorem parse_dump_variants (l : List (String × VariantState)) :
    parse_variants_map (l.map (fun vv => (vv.1, dump_variant vv.2))) = some l := by
  induction l with
  | nil => rfl
  | cons x rest ih => simp [parse_variants_map, parse_dump_variant, ih]

theorem parse_dump_product (p : ProductState) :
    parse_product (dump_product p) = some p := by
  rcases p with ⟨h, t, vd, u, im, vs⟩
  rcases vd <;> rcases im <;>
    simp [dump_product, parse_product, jgetStr, jgetOptStr, jopt, alookup,
      parse_dump_variants]

/-- C7: saving a snapshot and loading the saved document reconstructs the
snapshot exactly, every field of every product and variant included. -/
theorem claim_C7_save_load_roundtrip (S : Snapshot) :
    load_snapshot (save_snapshot S) = S := by
  rw [save_snapshot, load_snapshot]
  have h : parse_snapshot_items (S.map (fun hp => (hp.1, dump_product hp.2)))
      = some S := by
    induction S with
    | nil => rfl
    | cons x rest ih => simp [parse_snapshot_items, parse_dump_product, ih]
  rw [h]
  rfl

end Miyar
